import Mathlib

/-!
Verification of the GitHub Classroom grading tool (`main.go`, final variant).

Strings are modelled as `List Char`; Go maps as functions `List Char → Option (List Char)`;
external collaborators (the GitHub API client, the terminal, the process launcher, the
filesystem) are modelled as explicit parameters recording their outcomes, and every
observable action of the program is recorded in a trace of `Event`s.
-/

namespace Grading

/-- Characters of a string literal, the representation of Go strings here. -/
def strL (s : String) : List Char := s.data

/-- Leftmost index at which `old` occurs in the searched list, as computed by Go's
`strings.Index`: scan left to right, report the first position where `old` is a
leading block of the remaining list. -/
def firstMatchIdx (old : List Char) : List Char → Option Nat
  | [] => if old.isPrefixOf [] then some 0 else none
  | c :: t => if old.isPrefixOf (c :: t) then some 0 else (firstMatchIdx old t).map (· + 1)

/-- Go `strings.Replace(s, old, new, 1)`: replace the first occurrence of `old` in `s`
by `new`; when `old` is empty, Go matches at the start of the string, so the single
replacement inserts `new` in front; when `old` does not occur, `s` is returned
unchanged. -/
def goReplaceOnce (s old new : List Char) : List Char :=
  if old = [] then new ++ s
  else
    match firstMatchIdx old s with
    | none => s
    | some i => s.take i ++ new ++ s.drop (i + old.length)

/-- Go `strings.Contains(s, sub)`: true iff `strings.Index` finds an occurrence. -/
def goContains (s sub : List Char) : Bool :=
  (firstMatchIdx sub s).isSome

/-- A repository handle, as consumed from the go-github client: the only fields the
program reads are `*repo.Name` and `*repo.HTMLURL`. -/
structure Repository where
  name : List Char
  htmlUrl : List Char
deriving DecidableEq, Repr

/-- `RepoUrl`: get url to repo from repo object (`*repo.HTMLURL`). -/
def RepoUrl (repo : Repository) : List Char :=
  repo.htmlUrl

/-- `RepoNameByPrefixAndUser`: `fmt.Sprintf("%s%s", pref, user)`. -/
def RepoNameByPrefixAndUser (pref user : List Char) : List Char :=
  pref ++ user

/-- `UsernameFromRepo`: `strings.Replace(*repo.Name, pref, "", 1)` — first-occurrence
substring substitution, with no check that `pref` heads the repository name. -/
def UsernameFromRepo (repo : Repository) (pref : List Char) : List Char :=
  goReplaceOnce repo.name pref []

/-- `FilterReposByPref`: keep, in input order, exactly the repositories whose name
contains `pref` anywhere (`strings.Contains`), as the Go accumulation loop does. -/
def FilterReposByPref (repos : List Repository) (pref : List Char) : List Repository :=
  repos.filter (fun repo => goContains repo.name pref)

/-- Go `error` values are carried as their message text (opaque library errors are
arbitrary such texts). -/
abbrev GoError := List Char

/-- Wrapper struct for posting issues (`PostIssueOptions`). -/
structure PostIssueOptions where
  orgName : List Char
  repoName : List Char
  header : List Char
  body : List Char
deriving DecidableEq, Repr

/-- Observable actions of one run, in program order. -/
inductive Event where
  | printLine (msg : List Char)
  | dotenvLoad
  | openLogFile
  | readRoster
  | constructClient
  | dispatchAll
  | dispatchSingle
  | execStart (cmd : List Char) (args : List (List Char))
  | readInput
  | createIssue (opts : PostIssueOptions)
  | networkGet (org rname : List Char)
  | logLine (line : List Char)
deriving DecidableEq, Repr

/-- A Go `map[string]string`. -/
def SMap := List Char → Option (List Char)

/-- Outcomes of every external collaborator the program consults, fixed per run. -/
structure Env where
  /-- `runtime.GOOS` -/
  goos : List Char
  /-- result of `exec.Command(cmd, args...).Start()` -/
  execResult : List Char → List (List Char) → Option GoError
  /-- raw line delivered by `bufio.Reader.ReadString` on stdin, or its read error -/
  rawInput : Except GoError (List Char)
  /-- result of `client.Issues.Create` -/
  createResult : Option GoError
  /-- result of `client.Repositories.Get org rname`, by repository name -/
  getResult : List Char → Except GoError Repository
  /-- result of `godotenv.Load()` -/
  dotenvErr : Option GoError
  /-- `os.LookupEnv` -/
  envVars : SMap
  /-- result of `os.OpenFile` on the log file -/
  openLogErr : Option GoError
  /-- result of `ReadUsernameMap` on the roster path: `(name_username, username_name)` -/
  rosterResult : Except GoError (SMap × SMap)

/-- `StartBrowser`: switch on `runtime.GOOS` with no default case, so on any other
platform `err` keeps its zero value `nil` and nothing is launched. -/
def StartBrowser (env : Env) (url : List Char) : Option GoError × List Event :=
  if env.goos = strL "linux" then
    (env.execResult (strL "xdg-open") [url], [.execStart (strL "xdg-open") [url]])
  else if env.goos = strL "windows" then
    (env.execResult (strL "rundll32") [strL "url.dll,FileProtocolHandler", url],
     [.execStart (strL "rundll32") [strL "url.dll,FileProtocolHandler", url]])
  else if env.goos = strL "darwin" then
    (env.execResult (strL "open") [url], [.execStart (strL "open") [url]])
  else
    (none, [])

/-- `strings.Replace(in, "\x0a", "", -1)`: replacing every occurrence of the
one-character newline pattern with the empty string removes every newline. -/
def trimNewlines (s : List Char) : List Char :=
  s.filter (fun c => c ≠ '\n')

/-- `GatherInput`: one blocking `ReadString` on stdin followed by the newline
removal above. -/
def GatherInput (env : Env) : Except GoError (List Char) :=
  match env.rawInput with
  | .error e => .error e
  | .ok s => .ok (trimNewlines s)

/-- `PostIssue`: one `client.Issues.Create` call; the callback's error is returned. -/
def PostIssue (env : Env) (opts : PostIssueOptions) : Option GoError × List Event :=
  (env.createResult, [.createIssue opts])

/-- Prompt printed by `HandleIssueFeedback`. -/
def enterFeedbackMsg : List Char := strL "Enter any feedback for student:"

/-- Fixed issue title used by `HandleIssueFeedback`. -/
def feedbackHeader : List Char := strL "[FEEDBACK]"

/-- `HandleIssueFeedback`: prompt, gather input, opt out on empty text, otherwise post
an issue titled `[FEEDBACK]`; returns the feedback text and the error, if any. -/
def HandleIssueFeedback (env : Env) (repo : Repository) (org : List Char) :
    (List Char × Option GoError) × List Event :=
  let pevs : List Event := [.printLine enterFeedbackMsg, .readInput]
  match GatherInput env with
  | .error e => (([], some e), pevs)
  | .ok fback =>
    if fback = [] then (([], none), pevs)
    else
      let opts : PostIssueOptions := ⟨org, repo.name, feedbackHeader, fback⟩
      let p := PostIssue env opts
      ((fback, p.1), pevs ++ p.2)

/-- Sentinel display name substituted by `HandleRepo`. -/
def nameNotFound : List Char := strL "[NAME NOT FOUND]"

/-- Warning printed by `HandleRepo` when the display name is missing. -/
def repoWarnMsg (username : List Char) (postfeedback : Bool) : List Char :=
  strL "Note that username " ++ username ++ strL " not found in CSV. " ++
    (if postfeedback then strL "You can still post feedback below." else strL "")

/-- Audit-log line written by `HandleRepo` (`log.Println` body). -/
def logMessage (name username fback : List Char) : List Char :=
  strL "Name: " ++ name ++ strL ", Username: " ++ username ++ strL ", Feedback: " ++ fback

/-- `HandleRepo`: substitute the sentinel name with a warning when the display name is
empty, open the browser (fatal on launch error), then, with feedback enabled, collect
feedback; an issue-creation error is fatal, and the log line is written only when the
feedback text is non-empty and the issue was created without error. -/
def HandleRepo (env : Env) (repo : Repository) (username name org : List Char)
    (postfeedback : Bool) : Option GoError × List Event :=
  let warnEvs : List Event :=
    if name = [] then [.printLine (repoWarnMsg username postfeedback)] else []
  let nm := if name = [] then nameNotFound else name
  let b := StartBrowser env (RepoUrl repo)
  match b.1 with
  | some e => (some e, warnEvs ++ b.2)
  | none =>
    if postfeedback then
      let f := HandleIssueFeedback env repo org
      match f.1.2 with
      | some e => (some e, warnEvs ++ b.2 ++ f.2)
      | none =>
        if f.1.1 ≠ [] then
          (none, warnEvs ++ b.2 ++ f.2 ++ [.logLine (logMessage nm username f.1.1)])
        else
          (none, warnEvs ++ b.2 ++ f.2)
    else
      (none, warnEvs ++ b.2)

/-- `RepoByPrefixAndUser`: compute the conventional name and fetch that repository. -/
def RepoByPrefixAndUser (env : Env) (org pref user : List Char) :
    Except GoError Repository × List Event :=
  let rname := RepoNameByPrefixAndUser pref user
  (env.getResult rname, [.networkGet org rname])

/-- Warning printed by `SingleStudent` when the username has no display name. -/
def csvWarnMsg (username : List Char) : List Char :=
  strL "Note that username " ++ username ++ strL " not found in csv. Trying to proceed w/o... "

/-- Error returned by `SingleStudent` when the display name has no username. -/
def identityErrMsg (name : List Char) : List Char :=
  strL "Username for name " ++ name ++ strL " not found in mapping"

/-- `SingleStudent`: resolve the missing half of (name, username) through the roster
maps — a missing display name is a printed warning and the Go zero value `""` is kept,
a missing username is a returned error — then fetch the repository and run the session. -/
def SingleStudent (env : Env) (postfeedback : Bool) (pref org username name : List Char)
    (username_name name_username : SMap) : Option GoError × List Event :=
  let r1 : List Char × List Event :=
    if name = [] then
      match username_name username with
      | some n => (n, [])
      | none => ([], [.printLine (csvWarnMsg username)])
    else (name, [])
  let cont : List Char → List Char → List Event → Option GoError × List Event :=
    fun user nm evs =>
      let g := RepoByPrefixAndUser env org pref user
      match g.1 with
      | .error e => (some e, evs ++ g.2)
      | .ok repo =>
        let h := HandleRepo env repo user nm org postfeedback
        (h.1, evs ++ g.2 ++ h.2)
  if username = [] then
    match name_username r1.1 with
    | none => (some (identityErrMsg r1.1), r1.2)
    | some u => cont u r1.1 r1.2
  else
    cont username r1.1 r1.2

/-- Outcome of a Go function call that may also abort the process with a runtime
panic (`crash`), as an out-of-range slice index does. -/
inductive GoResult (α : Type) where
  | ok (a : α)
  | err (msg : List Char)
  | crash (msg : List Char)

/-- Go map insertion `m[k] = v`. -/
def mapInsert (m : SMap) (k v : List Char) : SMap :=
  fun x => if x = k then some v else m x

/-- The empty Go map. -/
def emptySMap : SMap := fun _ => none

/-- Error returned by `encoding/csv` when a record's field count differs from the
first record's (`csv.ErrFieldCount`). -/
def errFieldCountMsg : List Char := strL "record on line: wrong number of fields"

/-- Go runtime panic message for an out-of-range index. -/
def idxOutOfRangeMsg : List Char := strL "runtime error: index out of range"

/-- Loop body of `ReadUsernameMap`: `reader.Read()` validates each record against the
field count fixed by the first record (`csv.Reader` with default `FieldsPerRecord`),
a read error is returned, and `row[0]` / `row[1]` are taken unchecked, so a first
record with fewer than two fields is a runtime panic. -/
def readRows : Option Nat → SMap → SMap → List (List (List Char)) → GoResult (SMap × SMap)
  | _, name_username, username_name, [] => .ok (name_username, username_name)
  | fpr, name_username, username_name, row :: rest =>
    let n := fpr.getD row.length
    if row.length ≠ n then .err errFieldCountMsg
    else
      match row with
      | name :: username :: _ =>
        readRows (some n) (mapInsert name_username name username)
          (mapInsert username_name username name) rest
      | _ => .crash idxOutOfRangeMsg

/-- `ReadUsernameMap` over the parsed records of the roster file (the `os.Open`
failure path is the separate `Could not load file` error and is not modelled here):
returns the `name → username` and `username → name` maps. -/
def ReadUsernameMap (records : List (List (List Char))) : GoResult (SMap × SMap) :=
  readRows none emptySMap emptySMap records

/-- Evaluate the `name → username` mapping of a successful roster load at a key. -/
def lookupName (r : GoResult (SMap × SMap)) (k : List Char) : Option (List Char) :=
  match r with
  | .ok maps => maps.1 k
  | _ => none

/-- One page of a `Repositories.ListByOrg` response: the repositories and
`resp.NextPage` (`0` signals no further pages). -/
structure ListResponse where
  repos : List Repository
  nextPage : Nat

/-- The remote listing endpoint: `(perPage, page) ↦` one page or a transport error. -/
def Server := Nat → Nat → Except GoError ListResponse

/-- Loop of `OrgRepos`: call `ListByOrg` with `PerPage: 100` and the current `Page`,
return the accumulated repositories with the error on failure, append the page and
stop when `resp.NextPage == 0`, else continue from `resp.NextPage`. `fuel` bounds the
number of iterations; `none` means the loop did not finish within `fuel` calls. Each
`(perPage, page)` pair actually sent is recorded in `calls`. -/
def OrgReposAux (server : Server) :
    Nat → Nat → List Repository → List (Nat × Nat) →
    Option ((List Repository × Option GoError) × List (Nat × Nat))
  | 0, _, _, _ => none
  | fuel + 1, page, acc, calls =>
    match server 100 page with
    | .error e => some ((acc, some e), calls ++ [(100, page)])
    | .ok resp =>
      if resp.nextPage = 0 then
        some ((acc ++ resp.repos, none), calls ++ [(100, page)])
      else
        OrgReposAux server fuel resp.nextPage (acc ++ resp.repos) (calls ++ [(100, page)])

/-- `OrgRepos`: fetch all repositories of the org, starting from the zero-valued
`Page` option. -/
def OrgRepos (server : Server) (fuel : Nat) :
    Option ((List Repository × Option GoError) × List (Nat × Nat)) :=
  OrgReposAux server fuel 0 [] []

/-- The 0-based index of the page a request with `page` parameter denotes: the GitHub
API treats the zero value as the first page. -/
def pageIndex (page : Nat) : Nat :=
  if page = 0 then 0 else page - 1

/-- `page` parameter whose `pageIndex` is `i`, as produced by the `NextPage` chain. -/
def reqOf (i : Nat) : Nat :=
  match i with
  | 0 => 0
  | j + 1 => j + 2

/-- A well-behaved remote listing holding the given pages: each request serves its
page and points at the following one, `0` after the last; requests past the end
serve an empty final page. -/
def serverOfPages (pages : List (List Repository)) : Server :=
  fun _ page =>
    let i := pageIndex page
    if h : i < pages.length then
      .ok ⟨pages.get ⟨i, h⟩, if i + 1 < pages.length then i + 2 else 0⟩
    else
      .ok ⟨[], 0⟩

/-- A remote listing that serves the given pages, always promising a further page,
and fails with `e` on the first request past the end. -/
def serverOfPagesErr (pages : List (List Repository)) (e : GoError) : Server :=
  fun _ page =>
    let i := pageIndex page
    if h : i < pages.length then
      .ok ⟨pages.get ⟨i, h⟩, i + 2⟩
    else
      .error e

/-- Env-var key names read by `main`. -/
def envLoggingDest : List Char := strL "GRADING_LOGGING_DEST"

/-- Env-var key of the roster path. -/
def envUsernameMapPath : List Char := strL "GITHUB_USERNAME_MAP"

/-- Env-var key of the organization name. -/
def envOrg : List Char := strL "GITHUB_CLASSROOM_ORG"

/-- Env-var key of the API token. -/
def envToken : List Char := strL "GITHUB_AUTH_TOKEN"

/-- `fromEnv`: `os.LookupEnv` wrapper returning a descriptive error when unset. -/
def fromEnv (vars : SMap) (name : List Char) : Except GoError (List Char) :=
  match vars name with
  | none => .error (strL "Problem getting " ++ name ++ strL " from environment. Make sure it's set.")
  | some v => .ok v

/-- Message printed when both `-n` and `-u` are supplied. -/
def bothFlagsMsg : List Char :=
  strL "Using -n and -u together is not allowed. Please only specify one."

/-- Message printed when the `-p` flag is empty. -/
def noPrefixMsg : List Char :=
  strL "Did not provide prefix. Cannot proceed without -p flag."

/-- `main` after flag parsing, as the trace of its events: the mutual-exclusivity
check returns immediately; the missing-`pref` check only prints (the source has no
`return` in that branch) and the run continues through dotenv loading, log-file
opening, roster reading, env lookups, client construction and flow dispatch. The
All-Students flow is represented by its dispatch event (its ingredients `OrgRepos`,
`FilterReposByPref` and `HandleRepo` are modelled above); the Single-Student flow
runs in full. -/
def mainModel (env : Env) (pref name username : List Char)
    (postfeedback allstudents : Bool) : List Event :=
  if name ≠ [] ∧ username ≠ [] then
    [.printLine bothFlagsMsg]
  else
    (if pref = [] then [.printLine noPrefixMsg] else []) ++
    (.dotenvLoad ::
      match env.dotenvErr with
      | some e => [.printLine e]
      | none =>
        match fromEnv env.envVars envLoggingDest with
        | .error e => [.printLine e]
        | .ok _ =>
          .openLogFile ::
          match env.openLogErr with
          | some e => [.printLine e]
          | none =>
            match fromEnv env.envVars envUsernameMapPath with
            | .error e => [.printLine e]
            | .ok _ =>
              .readRoster ::
              match env.rosterResult with
              | .error e => [.printLine e]
              | .ok maps =>
                match fromEnv env.envVars envOrg with
                | .error e => [.printLine e]
                | .ok orgname =>
                  match fromEnv env.envVars envToken with
                  | .error e => [.printLine e]
                  | .ok _ =>
                    .constructClient ::
                    if allstudents then [.dispatchAll]
                    else
                      .dispatchSingle ::
                      (let s := SingleStudent env postfeedback pref orgname username name
                        maps.2 maps.1
                       s.2 ++ (match s.1 with
                               | some e => [.printLine e]
                               | none => [])))

/-- Recogniser for issue-creation events. -/
def isCreateIssue : Event → Bool
  | .createIssue _ => true
  | _ => false

/-- Recogniser for audit-log events. -/
def isLogLine : Event → Bool
  | .logLine _ => true
  | _ => false

/-- Fixture: a run on an unsupported platform, with every collaborator benign. -/
def envFreebsd : Env where
  goos := strL "freebsd"
  execResult := fun _ _ => none
  rawInput := .ok []
  createResult := none
  getResult := fun _ => .error (strL "nf")
  dotenvErr := none
  envVars := emptySMap
  openLogErr := none
  rosterResult := .error (strL "nf")

/-- Fixture: a linux run where every startup collaborator succeeds. -/
def envAllOk : Env where
  goos := strL "linux"
  execResult := fun _ _ => none
  rawInput := .ok []
  createResult := none
  getResult := fun _ => .error (strL "nf")
  dotenvErr := none
  envVars := fun _ => some (strL "x")
  openLogErr := none
  rosterResult := .ok (emptySMap, emptySMap)

/-- Fixture: a linux session whose operator answers the feedback prompt with a bare
newline. -/
def envNewline : Env where
  goos := strL "linux"
  execResult := fun _ _ => none
  rawInput := .ok (strL "\n")
  createResult := none
  getResult := fun _ => .error (strL "nf")
  dotenvErr := none
  envVars := emptySMap
  openLogErr := none
  rosterResult := .error (strL "nf")

/-- Fixture: a linux session whose operator enters non-empty feedback and whose issue
creation succeeds. -/
def envGood : Env where
  goos := strL "linux"
  execResult := fun _ _ => none
  rawInput := .ok (strL "good work")
  createResult := none
  getResult := fun _ => .error (strL "nf")
  dotenvErr := none
  envVars := emptySMap
  openLogErr := none
  rosterResult := .error (strL "nf")

/-- Fixture repository. -/
def repoW : Repository := ⟨strL "hw1-alice", strL "https://x/hw1-alice"⟩

/-- Fixture: a full first page of 100 repositories. -/
def pageA : List Repository := List.replicate 100 ⟨strL "hw1-a", strL "uA"⟩

/-- Fixture: a full second page of 100 repositories. -/
def pageB : List Repository := List.replicate 100 ⟨strL "hw1-b", strL "uB"⟩

/-- Fixture: a final page of 17 repositories. -/
def pageC : List Repository := List.replicate 17 ⟨strL "hw1-c", strL "uC"⟩

theorem isPrefixOf_true (p s : List Char) : p.isPrefixOf s = true ↔ p <+: s :=
  List.isPrefixOf_iff_prefix

theorem contains_cons_iff (x : List Char) (a : Char) (t : List Char) :
    x <:+: a :: t ↔ x <+: a :: t ∨ x <:+: t :=
  List.infix_cons_iff

theorem append_drop_len (p u : List Char) : (p ++ u).drop p.length = u :=
  List.drop_left p u

theorem firstMatchIdx_of_isPrefixOf (old s : List Char) (h : old.isPrefixOf s = true) :
    firstMatchIdx old s = some 0 := by
  cases s with
  | nil => simp [firstMatchIdx, h]
  | cons c t => simp [firstMatchIdx, h]

theorem firstMatchIdx_isSome_iff (old : List Char) :
    ∀ s, (firstMatchIdx old s).isSome = true ↔ old <:+: s := by
  intro s
  induction s with
  | nil =>
    cases old with
    | nil => simp [firstMatchIdx, List.isPrefixOf]
    | cons a b => simp [firstMatchIdx, List.isPrefixOf]
  | cons c t ih =>
    by_cases h : old.isPrefixOf (c :: t)
    · have hp : old <+: c :: t := (isPrefixOf_true old (c :: t)).mp h
      simp [firstMatchIdx, h]
      exact hp.isInfix
    · have hp : ¬ old <+: c :: t := fun hc => h ((isPrefixOf_true old (c :: t)).mpr hc)
      simp [firstMatchIdx, h, Option.isSome_map]
      rw [ih, contains_cons_iff]
      constructor
      · exact Or.inr
      · rintro (hc | hc)
        · exact absurd hc hp
        · exact hc

theorem goReplaceOnce_cancel (pref user : List Char) :
    goReplaceOnce (pref ++ user) pref [] = user := by
  by_cases h : pref = []
  · simp [goReplaceOnce, h]
  · have hpre : pref <+: pref ++ user := List.prefix_append pref user
    have hb : pref.isPrefixOf (pref ++ user) = true := (isPrefixOf_true _ _).mpr hpre
    have hid := firstMatchIdx_of_isPrefixOf pref (pref ++ user) hb
    simp [goReplaceOnce, h, hid, append_drop_len]

/-- C1: contrary to the claim, `UsernameFromRepo` performs first-occurrence substring
substitution with no prefix check and no failure path: with prefix `"hw1-"` and
repository name `"other-bob"` it silently returns `"other-bob"` unchanged, and with
repository name `"xhw1-bob"` it substitutes in the middle of the string and returns
the corrupted username `"xbob"`. -/
theorem usernameFromRepo_blind_substitution :
    UsernameFromRepo ⟨strL "other-bob", strL "u"⟩ (strL "hw1-") = strL "other-bob" ∧
    UsernameFromRepo ⟨strL "xhw1-bob", strL "u"⟩ (strL "hw1-") = strL "xbob" := by
  exact ⟨by decide, by decide⟩

/-- C5: composing forward naming with reverse naming is the identity,
`UsernameFromRepo ∘ RepoNameByPrefixAndUser = id` on the username — here proved for
every prefix and username, with no ambiguity caveat needed, because the first
occurrence of the prefix in `pref ++ user` is always at position 0. -/
theorem repoName_roundTrip (pref user url : List Char) :
    UsernameFromRepo ⟨RepoNameByPrefixAndUser pref user, url⟩ pref = user := by
  simpa [UsernameFromRepo, RepoNameByPrefixAndUser] using goReplaceOnce_cancel pref user

/-- C6: `FilterReposByPref` returns exactly the repositories whose name contains the
prefix as a substring anywhere (list-infix), in input order: it equals `List.filter`
of the substring predicate. -/
theorem filterReposByPref_eq_filter (repos : List Repository) (pref : List Char) :
    FilterReposByPref repos pref =
      repos.filter (fun repo => decide (pref <:+: repo.name)) := by
  unfold FilterReposByPref
  apply List.filter_congr
  intro repo _
  simp only [goContains]
  by_cases h : pref <:+: repo.name
  · simp [h, (firstMatchIdx_isSome_iff pref repo.name).mpr h]
  · have hb : (firstMatchIdx pref repo.name).isSome = false := by
      rcases hs : (firstMatchIdx pref repo.name).isSome with _ | _
      · rfl
      · exact absurd ((firstMatchIdx_isSome_iff pref repo.name).mp hs) h
    simp [h, hb]

/-- C9: contrary to the claim, a roster whose first row has fewer than two fields
makes `ReadUsernameMap` hit `row[1]` out of range — a runtime panic, not a
`RosterFormatError`; a later row with a deviating field count is caught by the csv
reader and returned as an error; and on a well-formed roster later rows overwrite
earlier ones in the returned maps. -/
theorem readUsernameMap_row_arity :
    ReadUsernameMap [[strL "alice"]] = .crash idxOutOfRangeMsg ∧
    ReadUsernameMap [[strL "alice", strL "ali"], [strL "bob"]] = .err errFieldCountMsg ∧
    lookupName (ReadUsernameMap [[strL "alice", strL "a1"], [strL "alice", strL "a2"]])
      (strL "alice") = some (strL "a2") := by
  exact ⟨rfl, rfl, rfl⟩

/-- C10: on any `runtime.GOOS` other than linux, windows and darwin, `StartBrowser`
launches nothing and returns the zero-valued `nil` error, so the session proceeds as
if the browser had opened. -/
theorem startBrowser_unsupported (env : Env) (url : List Char)
    (h1 : env.goos ≠ strL "linux") (h2 : env.goos ≠ strL "windows")
    (h3 : env.goos ≠ strL "darwin") :
    StartBrowser env url = (none, []) := by
  simp [StartBrowser, h1, h2, h3]

/-- Witness for C10 at `GOOS = "freebsd"`. -/
theorem startBrowser_unsupported_witness :
    StartBrowser envFreebsd (strL "https://x") = (none, []) :=
  startBrowser_unsupported envFreebsd (strL "https://x") (by decide) (by decide) (by decide)

/-- C7: with both the name and the username flag non-empty, `main` prints the
mutual-exclusivity message and returns at once — the trace holds no other event, in
particular no client construction and no remote call. -/
theorem main_both_flags_rejected (env : Env) (pref name username : List Char)
    (postfeedback allstudents : Bool) (h1 : name ≠ []) (h2 : username ≠ []) :
    mainModel env pref name username postfeedback allstudents =
      [.printLine bothFlagsMsg] := by
  simp [mainModel, h1, h2]

/-- Witness for C7 with `-n Alice -u alice`. -/
theorem main_both_flags_rejected_witness :
    mainModel envFreebsd (strL "hw1-") (strL "Alice") (strL "alice") false false =
      [.printLine bothFlagsMsg] :=
  main_both_flags_rejected envFreebsd (strL "hw1-") (strL "Alice") (strL "alice")
    false false (by decide) (by decide)

/-- C8: contrary to the claim, the missing-prefix branch of `main` prints its message
but has no `return`: with an empty `-p` flag the run continues through dotenv
loading, log-file opening, roster reading and client construction up to flow
dispatch. -/
theorem main_missing_prefix_continues :
    mainModel envAllOk [] [] [] false true =
      [.printLine noPrefixMsg, .dotenvLoad, .openLogFile, .readRoster,
       .constructClient, .dispatchAll] := by
  rfl

theorem pageIndex_reqOf (i : Nat) : pageIndex (reqOf i) = i := by
  cases i <;> simp [pageIndex, reqOf]

theorem orgReposAux_pages (pages : List (List Repository)) :
    ∀ fuel i acc calls, pages.length - i < fuel →
      ∃ cs, OrgReposAux (serverOfPages pages) fuel (reqOf i) acc calls =
          some ((acc ++ (pages.drop i).flatten, none), calls ++ cs) ∧
        ∀ c ∈ cs, c.1 = 100 := by
  intro fuel
  induction fuel with
  | zero => intro i acc calls h; exact absurd h (by omega)
  | succ fuel ih =>
    intro i acc calls h
    by_cases hlt : i < pages.length
    · have hjoin : (pages.drop i).flatten = pages[i] ++ (pages.drop (i + 1)).flatten := by
        rw [List.drop_eq_getElem_cons hlt]; rfl
      by_cases hnext : i + 1 < pages.length
      · obtain ⟨cs, hcs, hall⟩ :=
          ih (i + 1) (acc ++ pages[i]) (calls ++ [(100, reqOf i)]) (by omega)
        refine ⟨(100, reqOf i) :: cs, ?_, ?_⟩
        · rw [show reqOf (i + 1) = i + 2 from rfl] at hcs
          simp only [OrgReposAux, serverOfPages, pageIndex_reqOf, dif_pos hlt,
            if_pos hnext, List.get_eq_getElem]
          rw [if_neg (by omega : ¬ (i + 2 = 0))]
          rw [hcs]
          simp [hjoin, List.append_assoc]
        · intro c hc
          rcases List.mem_cons.mp hc with hc | hc
          · exact hc ▸ rfl
          · exact hall c hc
      · refine ⟨[(100, reqOf i)], ?_, by intro c hc; simp at hc; simp [hc]⟩
        have hd : pages.drop (i + 1) = [] := List.drop_eq_nil_of_le (by omega)
        simp only [OrgReposAux, serverOfPages, pageIndex_reqOf, dif_pos hlt,
          if_neg hnext, List.get_eq_getElem]
        simp [hjoin, hd]
    · refine ⟨[(100, reqOf i)], ?_, by intro c hc; simp at hc; simp [hc]⟩
      have hd : pages.drop i = [] := List.drop_eq_nil_of_le (by omega)
      simp only [OrgReposAux, serverOfPages, pageIndex_reqOf, dif_neg hlt]
      simp [hd]

theorem orgReposAux_pagesErr (pages : List (List Repository)) (e : GoError) :
    ∀ fuel i acc calls, pages.length - i < fuel →
      ∃ cs, OrgReposAux (serverOfPagesErr pages e) fuel (reqOf i) acc calls =
          some ((acc ++ (pages.drop i).flatten, some e), calls ++ cs) ∧
        ∀ c ∈ cs, c.1 = 100 := by
  intro fuel
  induction fuel with
  | zero => intro i acc calls h; exact absurd h (by omega)
  | succ fuel ih =>
    intro i acc calls h
    by_cases hlt : i < pages.length
    · have hjoin : (pages.drop i).flatten = pages[i] ++ (pages.drop (i + 1)).flatten := by
        rw [List.drop_eq_getElem_cons hlt]; rfl
      obtain ⟨cs, hcs, hall⟩ :=
        ih (i + 1) (acc ++ pages[i]) (calls ++ [(100, reqOf i)]) (by omega)
      refine ⟨(100, reqOf i) :: cs, ?_, ?_⟩
      · rw [show reqOf (i + 1) = i + 2 from rfl] at hcs
        simp only [OrgReposAux, serverOfPagesErr, pageIndex_reqOf, dif_pos hlt,
          List.get_eq_getElem]
        rw [if_neg (by omega : ¬ (i + 2 = 0))]
        rw [hcs]
        simp [hjoin, List.append_assoc]
      · intro c hc
        rcases List.mem_cons.mp hc with hc | hc
        · exact hc ▸ rfl
        · exact hall c hc
    · refine ⟨[(100, reqOf i)], ?_, by intro c hc; simp at hc; simp [hc]⟩
      have hd : pages.drop i = [] := List.drop_eq_nil_of_le (by omega)
      simp only [OrgReposAux, serverOfPagesErr, pageIndex_reqOf, dif_neg hlt]
      simp [hd]

/-- C2: `OrgRepos` walks the pages in order with a fixed `PerPage` of 100 until the
server's `NextPage` is 0, returning the concatenation of all pages; against a server
failing after serving its pages, it returns the pages already accumulated together
with the error. -/
theorem orgRepos_paging (pages : List (List Repository)) (e : GoError) (fuel : Nat)
    (hf : pages.length < fuel) :
    (∃ cs, OrgRepos (serverOfPages pages) fuel = some ((pages.flatten, none), cs) ∧
      ∀ c ∈ cs, c.1 = 100) ∧
    (∃ cs, OrgRepos (serverOfPagesErr pages e) fuel =
        some ((pages.flatten, some e), cs) ∧
      ∀ c ∈ cs, c.1 = 100) := by
  constructor
  · obtain ⟨cs, h1, h2⟩ := orgReposAux_pages pages fuel 0 [] [] (by omega)
    exact ⟨cs, by simpa [OrgRepos, reqOf] using h1, h2⟩
  · obtain ⟨cs, h1, h2⟩ := orgReposAux_pagesErr pages e fuel 0 [] [] (by omega)
    exact ⟨cs, by simpa [OrgRepos, reqOf] using h1, h2⟩

/-- Witness for C2: three pages of 100/100/17 repositories yield all 217 in order;
a server failing on the third request yields the first 200 plus the error. -/
theorem orgRepos_paging_witness :
    (∃ cs, OrgRepos (serverOfPages [pageA, pageB, pageC]) 4 =
        some ((([pageA, pageB, pageC] : List (List Repository)).flatten, none), cs) ∧
      ∀ c ∈ cs, c.1 = 100) ∧
    (∃ cs, OrgRepos (serverOfPagesErr [pageA, pageB] (strL "transport error")) 4 =
        some ((([pageA, pageB] : List (List Repository)).flatten,
          some (strL "transport error")), cs) ∧
      ∀ c ∈ cs, c.1 = 100) :=
  ⟨(orgRepos_paging [pageA, pageB, pageC] (strL "transport error") 4 (by decide)).1,
   (orgRepos_paging [pageA, pageB] (strL "transport error") 4 (by decide)).2⟩

theorem startBrowser_noIssueLog (env : Env) (url : List Char) :
    (StartBrowser env url).2.all (fun ev => !isCreateIssue ev && !isLogLine ev) = true := by
  unfold StartBrowser
  split_ifs <;> simp [isCreateIssue, isLogLine]

theorem startBrowser_anyLog (env : Env) (url : List Char) :
    (StartBrowser env url).2.any isLogLine = false ∧
    (StartBrowser env url).2.any isCreateIssue = false := by
  unfold StartBrowser
  split_ifs <;> simp [isCreateIssue, isLogLine]

/-- C3: with feedback enabled, a raw operator answer that trims to the empty string
produces neither an issue-creation call nor an audit-log line; and whenever the trace
holds an audit-log line, the issue-creation call is in the trace and its result was
success. -/
theorem feedback_empty_optout :
    (∀ (env : Env) (repo : Repository) (username name org s : List Char),
        env.rawInput = .ok s → trimNewlines s = [] →
        (HandleRepo env repo username name org true).2.all
          (fun ev => !isCreateIssue ev && !isLogLine ev) = true) ∧
    (∀ (env : Env) (repo : Repository) (username name org : List Char),
        (HandleRepo env repo username name org true).2.any isLogLine = true →
        env.createResult = none ∧
        (HandleRepo env repo username name org true).2.any isCreateIssue = true) := by
  constructor
  · intro env repo username name org s hraw hfil
    have hf : HandleIssueFeedback env repo org =
        (([], none), [.printLine enterFeedbackMsg, .readInput]) := by
      simp [HandleIssueFeedback, GatherInput, hraw, hfil]
    have hb := startBrowser_noIssueLog env (RepoUrl repo)
    cases hbm : (StartBrowser env (RepoUrl repo)).1 with
    | some e =>
      have htr : (HandleRepo env repo username name org true).2 =
          (if name = [] then [Event.printLine (repoWarnMsg username true)] else []) ++
            (StartBrowser env (RepoUrl repo)).2 := by
        simp [HandleRepo, hbm]
      rw [htr, List.all_append, Bool.and_eq_true]
      refine ⟨?_, hb⟩
      by_cases hn : name = [] <;> simp [hn, isCreateIssue, isLogLine]
    | none =>
      have htr : (HandleRepo env repo username name org true).2 =
          (if name = [] then [Event.printLine (repoWarnMsg username true)] else []) ++
            ((StartBrowser env (RepoUrl repo)).2 ++
              [Event.printLine enterFeedbackMsg, Event.readInput]) := by
        simp [HandleRepo, hbm, hf]
      rw [htr, List.all_append, List.all_append, Bool.and_eq_true, Bool.and_eq_true]
      refine ⟨?_, hb, ?_⟩
      · by_cases hn : name = [] <;> simp [hn, isCreateIssue, isLogLine]
      · simp [isCreateIssue, isLogLine]
  · intro env repo username name org hlog
    have hbl := (startBrowser_anyLog env (RepoUrl repo)).1
    cases hbm : (StartBrowser env (RepoUrl repo)).1 with
    | some e =>
      exfalso
      by_cases hn : name = [] <;>
        simp [HandleRepo, hbm, hn, List.any_append, isLogLine, hbl] at hlog
    | none =>
      cases hraw : env.rawInput with
      | error e =>
        exfalso
        have hf : HandleIssueFeedback env repo org =
            (([], some e), [.printLine enterFeedbackMsg, .readInput]) := by
          simp [HandleIssueFeedback, GatherInput, hraw]
        by_cases hn : name = [] <;>
          simp [HandleRepo, hbm, hn, hf, List.any_append, isLogLine, hbl] at hlog
      | ok s =>
        by_cases hfe : trimNewlines s = []
        · exfalso
          have hf : HandleIssueFeedback env repo org =
              (([], none), [.printLine enterFeedbackMsg, .readInput]) := by
            simp [HandleIssueFeedback, GatherInput, hraw, hfe]
          by_cases hn : name = [] <;>
            simp [HandleRepo, hbm, hn, hf, List.any_append, isLogLine, hbl] at hlog
        · have hf : HandleIssueFeedback env repo org =
              ((trimNewlines s, env.createResult),
               [.printLine enterFeedbackMsg, .readInput,
                .createIssue ⟨org, repo.name, feedbackHeader, trimNewlines s⟩]) := by
            simp [HandleIssueFeedback, GatherInput, hraw, hfe, PostIssue]
          cases hc : env.createResult with
          | some e =>
            exfalso
            by_cases hn : name = [] <;>
              simp [HandleRepo, hbm, hn, hf, hc, List.any_append, isLogLine, hbl] at hlog
          | none =>
            refine ⟨rfl, ?_⟩
            by_cases hn : name = [] <;>
              simp [HandleRepo, hbm, hn, hf, hc, hfe, List.any_append, isCreateIssue]

/-- Witness for C3: a bare-newline answer leaves the trace free of issue and log
events, and a successful non-empty feedback session shows the log is preceded by a
succeeded issue creation. -/
theorem feedback_empty_optout_witness :
    (HandleRepo envNewline repoW (strL "alice") (strL "Alice") (strL "org") true).2.all
      (fun ev => !isCreateIssue ev && !isLogLine ev) = true ∧
    (envGood.createResult = none ∧
      (HandleRepo envGood repoW (strL "alice") (strL "Alice") (strL "org") true).2.any
        isCreateIssue = true) :=
  ⟨feedback_empty_optout.1 envNewline repoW (strL "alice") (strL "Alice") (strL "org")
      (strL "\n") rfl (by decide : trimNewlines (strL "\n") = []),
   feedback_empty_optout.2 envGood repoW (strL "alice") (strL "Alice") (strL "org")
      (by decide)⟩

/-- C4: in Single-Student mode, a supplied display name with no username in the
roster is fatal before any repository lookup — the error is returned with an empty
trace — while a supplied username with no display name only prints a warning and
proceeds: the repository is fetched and the session runs with the empty name, for
which `HandleRepo` substitutes the sentinel. -/
theorem singleStudent_identity_asymmetry :
    (∀ (env : Env) (postfeedback : Bool) (pref org name : List Char)
        (username_name name_username : SMap),
        name ≠ [] → name_username name = none →
        SingleStudent env postfeedback pref org [] name username_name name_username =
          (some (identityErrMsg name), [])) ∧
    (∀ (env : Env) (postfeedback : Bool) (pref org username : List Char)
        (username_name name_username : SMap),
        username ≠ [] → username_name username = none →
        SingleStudent env postfeedback pref org username [] username_name name_username =
          (match env.getResult (RepoNameByPrefixAndUser pref username) with
           | .error e => (some e,
               [.printLine (csvWarnMsg username),
                .networkGet org (RepoNameByPrefixAndUser pref username)])
           | .ok repo =>
             ((HandleRepo env repo username [] org postfeedback).1,
              .printLine (csvWarnMsg username) ::
                .networkGet org (RepoNameByPrefixAndUser pref username) ::
                (HandleRepo env repo username [] org postfeedback).2))) := by
  constructor
  · intro env pf pref org name m1 m2 hn hmiss
    simp [SingleStudent, hn, hmiss]
  · intro env pf pref org username m1 m2 hu hmiss
    cases hg : env.getResult (RepoNameByPrefixAndUser pref username) <;>
      simp [SingleStudent, hu, hmiss, RepoByPrefixAndUser, hg]

/-- Witness for C4: with an empty roster, `-n Alice` fails with the identity error
and no lookup, while `-u alice` warns and reaches the repository fetch. -/
theorem singleStudent_identity_asymmetry_witness :
    SingleStudent envFreebsd false (strL "hw1-") (strL "org") [] (strL "Alice")
        emptySMap emptySMap = (some (identityErrMsg (strL "Alice")), []) ∧
    SingleStudent envFreebsd false (strL "hw1-") (strL "org") (strL "alice") []
        emptySMap emptySMap =
      (some (strL "nf"),
       [.printLine (csvWarnMsg (strL "alice")),
        .networkGet (strL "org") (strL "hw1-alice")]) := by
  constructor
  · exact singleStudent_identity_asymmetry.1 envFreebsd false (strL "hw1-")
      (strL "org") (strL "Alice") emptySMap emptySMap (by decide) rfl
  · have h := singleStudent_identity_asymmetry.2 envFreebsd false (strL "hw1-")
      (strL "org") (strL "alice") emptySMap emptySMap (by decide) rfl
    rw [h]
    decide

end Grading
